import Mathlib

set_option autoImplicit false

/-! Shallow embedding of `src/analysis.py`: mesoscale eddy detection from
sea-level-anomaly grids, chlorophyll anomaly computation, and the
unimplemented correlation stub.  Scalar fields are modelled as lists of
rows of optional rationals, where `none` stands for a missing value (NaN)
or an out-of-bounds access. -/

/-- Grid cell coordinate: (row index, column index). -/
abbrev Cell := Nat × Nat

/-- Scalar field: rows of optional rational values (`none` models NaN). -/
abbrev Grid := List (List (Option ℚ))

/-- Value of the field at a cell; `none` when missing or out of bounds. -/
def cellVal (g : Grid) (c : Cell) : Option ℚ :=
  (g.getD c.1 []).getD c.2 none

/-- Threshold mask `sla > threshold` (line 36): a missing value never
satisfies the comparison, so it is excluded from the mask. -/
def maskAt (g : Grid) (thr : ℚ) (c : Cell) : Bool :=
  match cellVal g c with
  | some v => decide (thr < v)
  | none => false

/-- All cell coordinates of the grid, in raster (row-major) order. -/
def allCells (g : Grid) : List Cell :=
  (List.range g.length).flatMap (fun i =>
    (List.range (g.getD i []).length).map (fun j => (i, j)))

/-- Cells of the threshold mask, in raster order. -/
def maskCells (g : Grid) (thr : ℚ) : List Cell :=
  (allCells g).filter (fun c => maskAt g thr c)

/-- Four-connectivity adjacency, the default structuring element used by
`scipy.ndimage.label` on a 2-D array (line 39). -/
def adjacent (c d : Cell) : Bool :=
  decide ((c.1 = d.1 ∧ (c.2 + 1 = d.2 ∨ d.2 + 1 = c.2)) ∨
          (c.2 = d.2 ∧ (c.1 + 1 = d.1 ∨ d.1 + 1 = c.1)))

/-- One step of region growth: add every mask cell adjacent to the current
front. -/
def compStep (m cur : List Cell) : List Cell :=
  cur ++ m.filter (fun c => decide (c ∉ cur) && cur.any (fun d => adjacent c d))

/-- Iterated region growth with explicit fuel. -/
def compFuel (m : List Cell) : Nat → List Cell → List Cell
  | 0, cur => cur
  | n + 1, cur => compFuel m n (compStep m cur)

/-- Connected component of the mask containing `c`: `m.length` growth steps
saturate reachability inside `m`. -/
def comp (m : List Cell) (c : Cell) : List Cell :=
  compFuel m m.length [c]

/-- Accumulate component representatives, one per component, in raster
order of first occurrence: the labelling order produced by
`scipy.ndimage.label` (line 39). -/
def buildReps (m : List Cell) : List Cell → List Cell → List Cell
  | acc, [] => acc
  | acc, c :: rest =>
    if acc.any (fun d => decide (c ∈ comp m d)) then buildReps m acc rest
    else buildReps m (acc ++ [c]) rest

/-- Component representatives of the whole mask. -/
def reps (m : List Cell) : List Cell :=
  buildReps m [] m

/-- Position (1-based) of the first representative whose component contains
`c`; `0` when none does. -/
def findLabel (m : List Cell) (c : Cell) : List Cell → Nat → Nat
  | [], _ => 0
  | d :: ds, k => if c ∈ comp m d then k + 1 else findLabel m c ds (k + 1)

/-- Integer label of a cell in the `labeled` array of line 39: background
(non-mask) cells are `0`, mask cells carry the 1-based index of their
component. -/
def labelAt (m : List Cell) (c : Cell) : Nat :=
  if c ∈ m then findLabel m c (reps m) 0 else 0

/-- Number of connected components (`num_features` of line 39). -/
def numFeatures (g : Grid) (thr : ℚ) : Nat :=
  (reps (maskCells g thr)).length

/-- Size of region `i`: `ndimage.sum(mask, labeled, i)` of line 42 sums the
mask (ones) over the cells labelled `i`. -/
def regionSize (g : Grid) (thr : ℚ) (i : Nat) : Nat :=
  ((allCells g).filter (fun c => labelAt (maskCells g thr) c == i)).countP
    (fun c => maskAt g thr c)

/-- Labels that survive the size filter (`np.where(valid)[0] + 1`, lines
42-45). -/
def validLabels (g : Grid) (thr : ℚ) (min_size : Nat) : List Nat :=
  (List.range' 1 (numFeatures g thr)).filter
    (fun i => decide (min_size ≤ regionSize g thr i))

/-- Output label map entry (line 45): keep the label when it belongs to a
surviving region, else background. -/
def eddyLabelAt (g : Grid) (thr : ℚ) (min_size : Nat) (c : Cell) : Nat :=
  if labelAt (maskCells g thr) c ∈ validLabels g thr min_size
  then labelAt (maskCells g thr) c else 0

/-- Rebuild a grid-shaped array from a per-cell function. -/
def mapGridIdx {α : Type} (g : Grid) (f : Cell → α) : List (List α) :=
  (List.range g.length).map (fun i =>
    (List.range (g.getD i []).length).map (fun j => f (i, j)))

/-- The `eddy_labels` array of line 45, with the shape of the input field. -/
def eddyLabels (g : Grid) (thr : ℚ) (min_size : Nat) : List (List Nat) :=
  mapGridIdx g (eddyLabelAt g thr min_size)

/-- Per-region summary record (lines 56-60). -/
structure RegionProps where
  centroid : ℚ × ℚ
  area : Nat
  intensity : ℚ
deriving DecidableEq

/-- Cells labelled `i` (`np.argwhere(labeled == i)`, line 52), in raster
order. -/
def regionPositions (g : Grid) (thr : ℚ) (i : Nat) : List Cell :=
  (allCells g).filter (fun c => labelAt (maskCells g thr) c == i)

/-- Centroid, area and mean intensity of region `i` (lines 52-55): centroid
is the index-space mean of the positions, area the region size, intensity
the mean of the field over the region (missing values skipped). -/
def regionProps (g : Grid) (thr : ℚ) (i : Nat) : RegionProps :=
  let pos := regionPositions g thr i
  let vals := pos.filterMap (fun c => cellVal g c)
  { centroid := ((pos.map (fun c => (c.1 : ℚ))).sum / (pos.length : ℚ),
                 (pos.map (fun c => (c.2 : ℚ))).sum / (pos.length : ℚ)),
    area := regionSize g thr i,
    intensity := vals.sum / (vals.length : ℚ) }

/-- The `eddy_properties` dictionary (lines 48-60): one record per
surviving label. -/
def eddyProperties (g : Grid) (thr : ℚ) (min_size : Nat) : List (Nat × RegionProps) :=
  (validLabels g thr min_size).map (fun i => (i, regionProps g thr i))

/-- Pure core of `detect_eddies` (lines 36-62), after the field is read. -/
def detect_eddies_core (g : Grid) (thr : ℚ) (min_size : Nat) :
    List (List Nat) × List (Nat × RegionProps) :=
  (eddyLabels g thr min_size, eddyProperties g thr min_size)

/-- Failures surfaced by the analysis functions. -/
inductive AnalysisError where
  | missingVariable (name : String)
  | missingDimension (name : String)
deriving DecidableEq

/-- Variable lookup in a loaded dataset, modelling `ds[name]` (lines 32 and
83): xarray raises a KeyError naming the missing variable when `name` is
absent from the dataset. -/
def getVar {α : Type} (ds : List (String × α)) (name : String) : Except AnalysisError α :=
  match ds.lookup name with
  | some v => Except.ok v
  | none => Except.error (AnalysisError.missingVariable name)

/-- Dataset of 2-D sea-level-anomaly fields, keyed by variable name. -/
abbrev SlaDataset := List (String × Grid)

/-- The `detect_eddies` entry point (lines 10-62), specialised to 2-D
fields: read the `sla` variable, then run the pure detection core. -/
def detect_eddies (ds : SlaDataset) (threshold : ℚ) (min_size : Nat) :
    Except AnalysisError (List (List Nat) × List (Nat × RegionProps)) :=
  match getVar ds "sla" with
  | Except.error e => Except.error e
  | Except.ok sla => Except.ok (detect_eddies_core sla threshold min_size)

/-- Chlorophyll variable: either a single 2-D field (no time dimension) or
a time series of 2-D frames. -/
inductive ChlVar where
  | static (g : Grid)
  | timed (frames : List Grid)
deriving DecidableEq

/-- Dataset of chlorophyll variables, keyed by variable name. -/
abbrev ChlDataset := List (String × ChlVar)

/-- Elementwise subtraction of optional values: a missing operand yields a
missing result (NaN propagation). -/
def cellSub : Option ℚ → Option ℚ → Option ℚ
  | some a, some b => some (a - b)
  | _, _ => none

/-- Elementwise difference of two grids. -/
def gridSub (a b : Grid) : Grid :=
  a.zipWith (fun ra rb => ra.zipWith cellSub rb) b

/-- Subtraction of variables with broadcasting over the time dimension
(line 92): a baseline without time is subtracted from every frame. -/
def varSub : ChlVar → ChlVar → ChlVar
  | ChlVar.static a, ChlVar.static b => ChlVar.static (gridSub a b)
  | ChlVar.timed as, ChlVar.static b => ChlVar.timed (as.map (fun a => gridSub a b))
  | ChlVar.static a, ChlVar.timed bs => ChlVar.timed (bs.map (fun b => gridSub a b))
  | ChlVar.timed as, ChlVar.timed bs => ChlVar.timed (as.zipWith gridSub bs)

/-- Mean of the present values at one cell; `none` when all are missing. -/
def meanCell (vals : List ℚ) : Option ℚ :=
  if vals.isEmpty then none else some (vals.sum / (vals.length : ℚ))

/-- Temporal mean with `skipna=True` (line 87): cellwise mean of the values
present across the frames, on the shape of the first frame. -/
def timeMean (frames : List Grid) : Grid :=
  match frames with
  | [] => []
  | g :: _ => mapGridIdx g (fun c => meanCell (frames.filterMap (fun f => cellVal f c)))

/-- The `calculate_chlorophyll_anomaly` entry point (lines 65-93): read the
`chlorophyll` variable, take the supplied climatology or the temporal mean
as baseline, and return the difference.  Taking a mean over the absent
`time` dimension of a static variable is an error, as in xarray. -/
def calculate_chlorophyll_anomaly (ds : ChlDataset) (climatology : Option ChlVar) :
    Except AnalysisError ChlVar :=
  match getVar ds "chlorophyll" with
  | Except.error e => Except.error e
  | Except.ok chl =>
    match climatology with
    | none =>
      match chl with
      | ChlVar.static _ => Except.error (AnalysisError.missingDimension "time")
      | ChlVar.timed frames =>
        Except.ok (varSub (ChlVar.timed frames) (ChlVar.static (timeMean frames)))
    | some clim => Except.ok (varSub chl clim)

/-- The `correlate_eddies_chlorophyll` stub (lines 97-118): prints a notice
and returns the pair `(0.0, {})`; the emitted message is modelled as part
of the result. -/
def correlate_eddies_chlorophyll (eddy_labels : List (List Nat)) (chl_anomaly : ChlVar) :
    String × (ℚ × List (Nat × ℚ)) :=
  ("Correlation function not yet implemented.", (0, []))

/-- Concrete scenario field: a 10 by 10 grid that is 0 everywhere except a
3 by 3 block of value 1/10 on rows 2-4 and columns 3-5. -/
def blockField : Grid :=
  (List.range 10).map (fun i => (List.range 10).map (fun j =>
    if 2 ≤ i ∧ i ≤ 4 ∧ 3 ≤ j ∧ j ≤ 5 then some (1/10 : ℚ) else some 0))

/-! ### Generic list and grid lemmas -/

theorem range_map_getD {α β : Type} (l : List α) (d : α) (f : α → β) :
    (List.range l.length).map (fun i => f (l.getD i d)) = l.map f := by
  induction l with
  | nil => rfl
  | cons a t ih =>
    have h : ((fun i => f (List.getD (a :: t) i d)) ∘ Nat.succ) =
        (fun i => f (t.getD i d)) := by
      funext i
      rfl
    simp only [List.length_cons, List.range_succ_eq_map, List.map_cons, List.getD_cons_zero,
      List.map_map, h, ih]

theorem length_filter_mono {α : Type} (l : List α) (p q : α → Bool)
    (h : ∀ a ∈ l, p a = true → q a = true) :
    (l.filter p).length ≤ (l.filter q).length := by
  induction l with
  | nil => exact Nat.le_refl 0
  | cons a t ih =>
    have ht : ∀ b ∈ t, p b = true → q b = true :=
      fun b hb => h b (List.mem_cons_of_mem a hb)
    simp only [List.filter_cons]
    by_cases hp : p a = true
    · rw [if_pos hp, if_pos (h a (List.mem_cons_self a t) hp)]
      exact Nat.succ_le_succ (ih ht)
    · rw [if_neg hp]
      by_cases hq : q a = true
      · rw [if_pos hq]
        exact Nat.le_succ_of_le (ih ht)
      · rw [if_neg hq]
        exact ih ht

theorem mem_allCells {g : Grid} {c : Cell} :
    c ∈ allCells g ↔ c.1 < g.length ∧ c.2 < (g.getD c.1 []).length := by
  unfold allCells
  constructor
  · intro h
    rcases List.mem_flatMap.1 h with ⟨i, hi, hc⟩
    rcases List.mem_map.1 hc with ⟨j, hj, rfl⟩
    exact ⟨List.mem_range.1 hi, List.mem_range.1 hj⟩
  · intro h
    exact List.mem_flatMap.2 ⟨c.1, List.mem_range.2 h.1,
      List.mem_map.2 ⟨c.2, List.mem_range.2 h.2, rfl⟩⟩

theorem mapGridIdx_shape {α : Type} (g : Grid) (f : Cell → α) :
    (mapGridIdx g f).map List.length = g.map List.length := by
  unfold mapGridIdx
  rw [List.map_map]
  have h : (List.length ∘ fun i => (List.range ((g.getD i []).length)).map (fun j => f (i, j)))
      = fun i => (g.getD i []).length := by
    funext i
    simp
  rw [h]
  exact range_map_getD g [] List.length

theorem mem_mapGridIdx {α : Type} {g : Grid} {f : Cell → α} {v : α} :
    (∃ row ∈ mapGridIdx g f, v ∈ row) ↔ ∃ c ∈ allCells g, f c = v := by
  unfold mapGridIdx
  constructor
  · rintro ⟨row, hrow, hv⟩
    rcases List.mem_map.1 hrow with ⟨i, hi, rfl⟩
    rcases List.mem_map.1 hv with ⟨j, hj, rfl⟩
    exact ⟨(i, j), mem_allCells.2 ⟨List.mem_range.1 hi, List.mem_range.1 hj⟩, rfl⟩
  · rintro ⟨c, hc, rfl⟩
    rcases mem_allCells.1 hc with ⟨h1, h2⟩
    exact ⟨(List.range ((g.getD c.1 []).length)).map (fun j => f (c.1, j)),
      List.mem_map.2 ⟨c.1, List.mem_range.2 h1, rfl⟩,
      List.mem_map.2 ⟨c.2, List.mem_range.2 h2, rfl⟩⟩

theorem mapGridIdx_getD {α : Type} (g : Grid) (f : Cell → α) (d : α) {c : Cell}
    (hc : c ∈ allCells g) :
    ((mapGridIdx g f).getD c.1 []).getD c.2 d = f c := by
  rcases mem_allCells.1 hc with ⟨h1, h2⟩
  unfold mapGridIdx
  rw [List.getD_eq_getElem?_getD _ c.1 [], List.getElem?_map, List.getElem?_range h1]
  simp only [Option.map_some', Option.getD_some]
  rw [List.getD_eq_getElem?_getD _ c.2 d, List.getElem?_map, List.getElem?_range h2]
  rfl

/-! ### Claim theorems for the entry points with simple behaviour -/

/-- C2: when the expected variable name (`sla` for `detect_eddies`,
`chlorophyll` for `calculate_chlorophyll_anomaly`) is absent from the
dataset, each function fails fast with a descriptive missing-variable
error rather than a cryptic lookup failure. -/
theorem missing_variable_error (ds1 : SlaDataset) (ds2 : ChlDataset) (thr : ℚ)
    (min_size : Nat) (clim : Option ChlVar)
    (h1 : ds1.lookup "sla" = none) (h2 : ds2.lookup "chlorophyll" = none) :
    detect_eddies ds1 thr min_size = Except.error (AnalysisError.missingVariable "sla") ∧
    calculate_chlorophyll_anomaly ds2 clim =
      Except.error (AnalysisError.missingVariable "chlorophyll") := by
  constructor
  · unfold detect_eddies getVar
    rw [h1]
  · unfold calculate_chlorophyll_anomaly getVar
    rw [h2]

/-- Witness for C2 at concrete empty datasets. -/
theorem missing_variable_error_witness :
    ([] : SlaDataset).lookup "sla" = none ∧
    ([] : ChlDataset).lookup "chlorophyll" = none ∧
    detect_eddies [] 0 5 = Except.error (AnalysisError.missingVariable "sla") ∧
    calculate_chlorophyll_anomaly [] none =
      Except.error (AnalysisError.missingVariable "chlorophyll") := by
  refine ⟨rfl, rfl, ?_⟩
  exact missing_variable_error [] [] 0 5 none rfl rfl

/-- C3: on the 10 by 10 field with one 3 by 3 block of value 1/10 and the
rest 0, threshold 1/20 and minimum size 5 produce exactly one region
record, with area 9, centroid (3, 4) at the geometric center of the block
in index space, and intensity 1/10. -/
theorem detect_eddies_block_scenario :
    (detect_eddies_core blockField (1/20) 5).2 =
      [(1, { centroid := (3, 4), area := 9, intensity := 1/10 })] := by
  with_unfolding_all decide

/-- C8: the correlation stub performs no computation on its inputs: it
unconditionally returns correlation 0 with an empty per-eddy statistics
mapping, after emitting its diagnostic notice. -/
theorem correlate_stub_neutral (labels : List (List Nat)) (anom : ChlVar) :
    correlate_eddies_chlorophyll labels anom =
      ("Correlation function not yet implemented.", (0, [])) := rfl

/-- C10: when the chlorophyll variable has no time dimension, computing the
anomaly without a supplied baseline fails (the internal temporal mean
cannot be formed), while any explicitly supplied baseline avoids the
failure. -/
theorem no_time_dim_error (ds : ChlDataset) (g : Grid)
    (hv : getVar ds "chlorophyll" = Except.ok (ChlVar.static g)) :
    calculate_chlorophyll_anomaly ds none =
      Except.error (AnalysisError.missingDimension "time") ∧
    ∀ clim : ChlVar, ∃ out : ChlVar,
      calculate_chlorophyll_anomaly ds (some clim) = Except.ok out := by
  constructor
  · unfold calculate_chlorophyll_anomaly
    rw [hv]
  · intro clim
    refine ⟨varSub (ChlVar.static g) clim, ?_⟩
    unfold calculate_chlorophyll_anomaly
    rw [hv]

/-- Witness for C10 at a concrete one-cell static chlorophyll dataset. -/
theorem no_time_dim_error_witness :
    getVar [("chlorophyll", ChlVar.static [[some 1]])] "chlorophyll" =
      Except.ok (ChlVar.static [[some 1]]) ∧
    calculate_chlorophyll_anomaly [("chlorophyll", ChlVar.static [[some 1]])] none =
      Except.error (AnalysisError.missingDimension "time") := by
  refine ⟨rfl, ?_⟩
  exact (no_time_dim_error [("chlorophyll", ChlVar.static [[some 1]])] [[some 1]] rfl).1

/-! ### Labelling lemmas -/

theorem mem_compStep_of_mem {m cur : List Cell} {x : Cell} (h : x ∈ cur) :
    x ∈ compStep m cur :=
  List.mem_append_left _ h

theorem mem_compFuel_of_mem (m : List Cell) :
    ∀ (n : Nat) (cur : List Cell) (x : Cell), x ∈ cur → x ∈ compFuel m n cur
  | 0, _, _, h => h
  | n + 1, cur, x, h => mem_compFuel_of_mem m n (compStep m cur) x (mem_compStep_of_mem h)

theorem mem_comp_self (m : List Cell) (c : Cell) : c ∈ comp m c :=
  mem_compFuel_of_mem m m.length [c] c (List.mem_singleton_self c)

theorem buildReps_subset (m rest : List Cell) :
    ∀ acc : List Cell, ∀ x ∈ buildReps m acc rest, x ∈ acc ∨ x ∈ rest := by
  induction rest with
  | nil =>
    intro acc x h
    exact Or.inl h
  | cons c rest ih =>
    intro acc x h
    unfold buildReps at h
    split at h
    · rcases ih acc x h with h1 | h1
      · exact Or.inl h1
      · exact Or.inr (List.mem_cons_of_mem c h1)
    · rcases ih (acc ++ [c]) x h with h1 | h1
      · rcases List.mem_append.1 h1 with h2 | h2
        · exact Or.inl h2
        · exact Or.inr (List.mem_cons.2 (Or.inl (List.mem_singleton.1 h2)))
      · exact Or.inr (List.mem_cons_of_mem c h1)

theorem buildReps_pairwise (m rest : List Cell) :
    ∀ acc : List Cell, acc.Pairwise (fun d e => e ∉ comp m d) →
      (buildReps m acc rest).Pairwise (fun d e => e ∉ comp m d) := by
  induction rest with
  | nil =>
    intro acc h
    exact h
  | cons c rest ih =>
    intro acc h
    unfold buildReps
    split
    · exact ih acc h
    · next hc =>
      refine ih (acc ++ [c]) (List.pairwise_append.2 ⟨h, List.pairwise_singleton _ c, ?_⟩)
      intro a ha b hb hmem
      rw [List.mem_singleton.1 hb] at hmem
      exact hc (List.any_eq_true.2 ⟨a, ha, decide_eq_true hmem⟩)

theorem findLabel_append (m : List Cell) (c : Cell) (L2 L1 : List Cell) :
    ∀ k : Nat, (∀ d ∈ L1, c ∉ comp m d) →
      findLabel m c (L1 ++ L2) k = findLabel m c L2 (k + L1.length) := by
  induction L1 with
  | nil =>
    intro k _
    rfl
  | cons d L1 ih =>
    intro k h
    have hd : c ∉ comp m d := h d (List.mem_cons_self d L1)
    show findLabel m c (d :: (L1 ++ L2)) k = _
    simp only [findLabel]
    rw [if_neg hd, ih (k + 1) (fun e he => h e (List.mem_cons_of_mem d he))]
    congr 1
    simp only [List.length_cons]
    omega

theorem labelAt_mem_of_ne_zero {m : List Cell} {c : Cell} (h : labelAt m c ≠ 0) : c ∈ m := by
  by_contra hc
  apply h
  unfold labelAt
  rw [if_neg hc]

theorem reps_pairwise (m : List Cell) :
    (reps m).Pairwise (fun d e => e ∉ comp m d) :=
  buildReps_pairwise m m [] List.Pairwise.nil

theorem reps_subset (m : List Cell) : ∀ x ∈ reps m, x ∈ m := by
  intro x hx
  rcases buildReps_subset m m [] x hx with h | h
  · exact absurd h (List.not_mem_nil x)
  · exact h

theorem labelAt_rep (m : List Cell) (k : Nat) (hk : k < (reps m).length) :
    labelAt m ((reps m)[k]) = k + 1 := by
  have hrm : (reps m)[k] ∈ m := reps_subset m _ (List.getElem_mem hk)
  have hsplit : reps m = (reps m).take k ++ (reps m)[k] :: (reps m).drop (k + 1) := by
    have h0 := (List.take_append_drop k (reps m)).symm
    rw [List.drop_eq_getElem_cons hk] at h0
    exact h0
  have hpw := reps_pairwise m
  rw [hsplit] at hpw
  rcases List.pairwise_append.1 hpw with ⟨_, _, hcross⟩
  have htake : ∀ d ∈ (reps m).take k, (reps m)[k] ∉ comp m d := by
    intro d hd
    exact hcross d hd _ (List.mem_cons_self _ _)
  obtain ⟨r, hr⟩ : ∃ r, (reps m)[k] = r := ⟨_, rfl⟩
  rw [hr] at hrm hsplit htake ⊢
  unfold labelAt
  rw [if_pos hrm]
  conv_lhs => rw [hsplit]
  rw [findLabel_append m r (r :: (reps m).drop (k + 1)) ((reps m).take k) 0 htake]
  have hlen : ((reps m).take k).length = k := by
    rw [List.length_take]
    exact Nat.min_eq_left (Nat.le_of_lt hk)
  simp only [findLabel]
  rw [if_pos (mem_comp_self m r), hlen]
  omega

/-- C6: when the threshold exceeds every value of the field, detection
returns an empty statistics mapping and an all-zero label map, without an
error. -/
theorem threshold_above_max_empty (g : Grid) (thr M : ℚ) (min_size : Nat)
    (hmax : ∀ c ∈ allCells g, ∀ v : ℚ, cellVal g c = some v → v ≤ M)
    (hthr : M < thr) :
    (detect_eddies_core g thr min_size).2 = [] ∧
    ∀ row ∈ (detect_eddies_core g thr min_size).1, ∀ v ∈ row, v = 0 := by
  have hmask : maskCells g thr = [] := by
    unfold maskCells
    rw [List.filter_eq_nil_iff]
    intro c hc
    unfold maskAt
    cases hval : cellVal g c with
    | none => simp
    | some v =>
      have hvM := hmax c hc v hval
      simp only [decide_eq_true_eq]
      exact not_lt.2 (le_of_lt (lt_of_le_of_lt hvM hthr))
  have hlab : ∀ c : Cell, labelAt (maskCells g thr) c = 0 := by
    intro c
    unfold labelAt
    rw [hmask]
    rw [if_neg (List.not_mem_nil c)]
  constructor
  · show eddyProperties g thr min_size = []
    unfold eddyProperties validLabels numFeatures
    rw [hmask]
    rfl
  · intro row hrow v hv
    have hrow' : row ∈ mapGridIdx g (eddyLabelAt g thr min_size) := hrow
    rcases mem_mapGridIdx.1 ⟨row, hrow', hv⟩ with ⟨c, _, heq⟩
    rw [← heq]
    unfold eddyLabelAt
    rw [hlab c]
    exact ite_self 0

/-- Witness for C6 on a one-cell field of value 0 with threshold 1. -/
theorem threshold_above_max_empty_witness :
    (detect_eddies_core [[some 0]] 1 5).2 = [] ∧
    ∀ row ∈ (detect_eddies_core [[some 0]] 1 5).1, ∀ v ∈ row, v = 0 := by
  refine threshold_above_max_empty [[some 0]] 1 0 5 ?_ (by norm_num)
  intro c hc v hval
  have hm : allCells [[some (0 : ℚ)]] = [(0, 0)] := rfl
  rw [hm] at hc
  rw [List.mem_singleton.1 hc] at hval
  exact le_of_eq (Option.some.inj hval).symm

/-- C9: a cell whose field value is missing is excluded from the threshold
mask, is background (label 0) in the output label map, and belongs to no
region's positions, hence contributes to no area, centroid or intensity. -/
theorem missing_value_background (g : Grid) (thr : ℚ) (min_size : Nat) (c : Cell)
    (h : cellVal g c = none) :
    maskAt g thr c = false ∧ eddyLabelAt g thr min_size c = 0 ∧
    ∀ i : Nat, 1 ≤ i → c ∉ regionPositions g thr i := by
  have hmask : maskAt g thr c = false := by
    unfold maskAt
    rw [h]
  have hnm : c ∉ maskCells g thr := by
    intro hc
    have h2 := (List.mem_filter.1 hc).2
    simp [hmask] at h2
  have hlab : labelAt (maskCells g thr) c = 0 := by
    unfold labelAt
    rw [if_neg hnm]
  refine ⟨hmask, ?_, ?_⟩
  · unfold eddyLabelAt
    rw [hlab]
    exact ite_self 0
  · intro i hi hc
    have heq : labelAt (maskCells g thr) c = i := by
      simpa using (List.mem_filter.1 hc).2
    rw [hlab] at heq
    omega

/-- Witness for C9 at a one-cell field whose only value is missing. -/
theorem missing_value_background_witness :
    cellVal [[none]] (0, 0) = none ∧
    (maskAt [[none]] 0 (0, 0) = false ∧ eddyLabelAt [[none]] 0 5 (0, 0) = 0 ∧
     ∀ i : Nat, 1 ≤ i → (0, 0) ∉ regionPositions [[none]] 0 i) :=
  ⟨rfl, missing_value_background [[none]] 0 5 (0, 0) rfl⟩

/-! ### Region and size-filter lemmas -/

theorem mem_validLabels {g : Grid} {thr : ℚ} {min_size i : Nat} :
    i ∈ validLabels g thr min_size ↔
      (1 ≤ i ∧ i < 1 + numFeatures g thr) ∧ min_size ≤ regionSize g thr i := by
  unfold validLabels
  rw [List.mem_filter, List.mem_range'_1]
  simp

theorem regionSize_eq_length {g : Grid} {thr : ℚ} {i : Nat} (hi : 1 ≤ i) :
    regionSize g thr i = (regionPositions g thr i).length := by
  unfold regionSize regionPositions
  apply List.countP_eq_length.2
  intro c hc
  have h1 : labelAt (maskCells g thr) c = i := by
    simpa using (List.mem_filter.1 hc).2
  have h2 : c ∈ maskCells g thr := labelAt_mem_of_ne_zero (by rw [h1]; omega)
  simpa using (List.mem_filter.1 h2).2

theorem eddyLabelAt_mem_of_ne_zero {g : Grid} {thr : ℚ} {min_size : Nat} {c : Cell}
    (h : eddyLabelAt g thr min_size c ≠ 0) :
    eddyLabelAt g thr min_size c ∈ validLabels g thr min_size := by
  unfold eddyLabelAt at h ⊢
  by_cases hm : labelAt (maskCells g thr) c ∈ validLabels g thr min_size
  · rw [if_pos hm]
    exact hm
  · rw [if_neg hm] at h
    exact absurd rfl h

theorem eddyLabelAt_eq_iff {g : Grid} {thr : ℚ} {min_size i : Nat} {c : Cell}
    (hi : i ∈ validLabels g thr min_size) :
    eddyLabelAt g thr min_size c = i ↔ labelAt (maskCells g thr) c = i := by
  unfold eddyLabelAt
  by_cases h : labelAt (maskCells g thr) c ∈ validLabels g thr min_size
  · rw [if_pos h]
  · rw [if_neg h]
    constructor
    · intro h0
      have h1 : 1 ≤ i := (mem_validLabels.1 hi).1.1
      omega
    · intro hl
      rw [hl] at h
      exact absurd hi h

theorem keys_eq (g : Grid) (thr : ℚ) (min_size : Nat) :
    (eddyProperties g thr min_size).map Prod.fst = validLabels g thr min_size := by
  unfold eddyProperties
  rw [List.map_map]
  exact List.map_id'' (fun _ => rfl) _

/-- C1: the label map has the shape of the input field; every nonzero value
of the label map is a key of the statistics mapping; every key occurs as a
nonzero value in the label map; and every key's region has cell count at
least the minimum size. -/
theorem detect_eddies_labels_stats_coherent (g : Grid) (thr : ℚ) (min_size : Nat) :
    ((detect_eddies_core g thr min_size).1).map List.length = g.map List.length ∧
    (∀ row ∈ (detect_eddies_core g thr min_size).1, ∀ v ∈ row, v ≠ 0 →
      v ∈ (detect_eddies_core g thr min_size).2.map Prod.fst) ∧
    (∀ i ∈ (detect_eddies_core g thr min_size).2.map Prod.fst,
      ∃ row ∈ (detect_eddies_core g thr min_size).1, i ∈ row) ∧
    (∀ i ∈ (detect_eddies_core g thr min_size).2.map Prod.fst,
      min_size ≤ ((allCells g).filter
        (fun c => eddyLabelAt g thr min_size c == i)).length) := by
  have hkeys : (detect_eddies_core g thr min_size).2.map Prod.fst =
      validLabels g thr min_size := keys_eq g thr min_size
  refine ⟨mapGridIdx_shape g (eddyLabelAt g thr min_size), ?_, ?_, ?_⟩
  · intro row hrow v hv hne
    rw [hkeys]
    have hrow' : row ∈ mapGridIdx g (eddyLabelAt g thr min_size) := hrow
    rcases mem_mapGridIdx.1 ⟨row, hrow', hv⟩ with ⟨c, _, heq⟩
    rw [← heq]
    exact eddyLabelAt_mem_of_ne_zero (heq ▸ hne)
  · intro i hi
    rw [hkeys] at hi
    rcases mem_validLabels.1 hi with ⟨⟨h1, hlt⟩, _⟩
    have hk : i - 1 < (reps (maskCells g thr)).length := by
      have : numFeatures g thr = (reps (maskCells g thr)).length := rfl
      omega
    have hlabel : labelAt (maskCells g thr) ((reps (maskCells g thr))[i-1]) = i := by
      rw [labelAt_rep (maskCells g thr) (i - 1) hk]
      omega
    have hra : (reps (maskCells g thr))[i-1] ∈ allCells g :=
      (List.mem_filter.1 (reps_subset (maskCells g thr) _ (List.getElem_mem hk))).1
    exact mem_mapGridIdx.2 ⟨(reps (maskCells g thr))[i-1], hra,
      (@eddyLabelAt_eq_iff g thr min_size i _ hi).2 hlabel⟩
  · intro i hi
    rw [hkeys] at hi
    rcases mem_validLabels.1 hi with ⟨⟨h1, _⟩, hsize⟩
    have hcongr : ((allCells g).filter (fun c => eddyLabelAt g thr min_size c == i)) =
        regionPositions g thr i := by
      unfold regionPositions
      apply List.filter_congr
      intro c _
      rw [Bool.eq_iff_iff, beq_iff_eq, beq_iff_eq]
      exact @eddyLabelAt_eq_iff g thr min_size i c hi
    rw [hcongr, ← regionSize_eq_length h1]
    exact hsize

/-- C4: raising the minimum size never increases the number of surviving
regions reported by detection. -/
theorem surviving_regions_antitone (g : Grid) (thr : ℚ) (m1 m2 : Nat) (h : m1 ≤ m2) :
    ((detect_eddies_core g thr m2).2).length ≤ ((detect_eddies_core g thr m1).2).length := by
  show (eddyProperties g thr m2).length ≤ (eddyProperties g thr m1).length
  unfold eddyProperties
  rw [List.length_map, List.length_map]
  unfold validLabels
  apply length_filter_mono
  intro i _ hi
  rw [decide_eq_true_eq] at hi ⊢
  omega

/-- Witness for C4 on a one-cell field with minimum sizes 0 and 1. -/
theorem surviving_regions_antitone_witness :
    0 ≤ 1 ∧ ((detect_eddies_core [[some 1]] 0 1).2).length ≤
      ((detect_eddies_core [[some 1]] 0 0).2).length :=
  ⟨Nat.zero_le 1, surviving_regions_antitone [[some 1]] 0 0 1 (Nat.zero_le 1)⟩

/-! ### Subtraction and temporal-mean lemmas -/

theorem zipWith_cellSub_getD : ∀ (ra rb : List (Option ℚ)), rb.length = ra.length →
    ∀ j : Nat, (ra.zipWith cellSub rb).getD j none =
      cellSub (ra.getD j none) (rb.getD j none) := by
  intro ra
  induction ra with
  | nil =>
    intro rb h j
    cases rb with
    | nil => rfl
    | cons y tb => exact absurd h (by simp)
  | cons x ta ih =>
    intro rb h j
    cases rb with
    | nil => exact absurd h (by simp)
    | cons y tb =>
      cases j with
      | zero => rfl
      | succ j =>
        show (ta.zipWith cellSub tb).getD j none = _
        exact ih tb (by simpa using h) j

theorem gridSub_shape : ∀ (a b : Grid), b.map List.length = a.map List.length →
    (gridSub a b).map List.length = a.map List.length := by
  intro a
  induction a with
  | nil =>
    intro b _
    rfl
  | cons ra ta ih =>
    intro b hs
    cases b with
    | nil => exact absurd hs (by simp)
    | cons rb tb =>
      simp only [List.map_cons, List.cons.injEq] at hs
      show ((ra.zipWith cellSub rb) :: gridSub ta tb).map List.length = _
      simp only [List.map_cons, List.length_zipWith]
      rw [hs.1, Nat.min_self, ih tb hs.2]

theorem gridSub_cellVal : ∀ (a b : Grid), b.map List.length = a.map List.length →
    ∀ c : Cell, cellVal (gridSub a b) c = cellSub (cellVal a c) (cellVal b c) := by
  intro a
  induction a with
  | nil =>
    intro b hs c
    cases b with
    | nil => rfl
    | cons rb tb => exact absurd hs (by simp)
  | cons ra ta ih =>
    intro b hs c
    cases b with
    | nil => exact absurd hs (by simp)
    | cons rb tb =>
      simp only [List.map_cons, List.cons.injEq] at hs
      rcases c with ⟨i, j⟩
      cases i with
      | zero =>
        show (ra.zipWith cellSub rb).getD j none = _
        exact zipWith_cellSub_getD ra rb hs.1 j
      | succ i =>
        show cellVal (gridSub ta tb) (i, j) = cellSub (cellVal ta (i, j)) (cellVal tb (i, j))
        exact ih tb hs.2 (i, j)

theorem timedSub_shapes : ∀ (as bs : List Grid),
    bs.map (fun g => g.map List.length) = as.map (fun g => g.map List.length) →
    (as.zipWith gridSub bs).map (fun g => g.map List.length) =
      as.map (fun g => g.map List.length) := by
  intro as
  induction as with
  | nil =>
    intro bs _
    rfl
  | cons a ta ih =>
    intro bs hs
    cases bs with
    | nil => exact absurd hs (by simp)
    | cons b tb =>
      simp only [List.map_cons, List.cons.injEq] at hs
      show (gridSub a b :: ta.zipWith gridSub tb).map (fun g => g.map List.length) = _
      simp only [List.map_cons]
      rw [gridSub_shape a b hs.1, ih tb hs.2]

theorem timedSub_frames : ∀ (as bs : List Grid),
    bs.map (fun g => g.map List.length) = as.map (fun g => g.map List.length) →
    ∀ (t : Nat) (c : Cell),
      cellVal ((as.zipWith gridSub bs).getD t []) c =
        cellSub (cellVal (as.getD t []) c) (cellVal (bs.getD t []) c) := by
  intro as
  induction as with
  | nil =>
    intro bs hs t c
    cases bs with
    | nil => rfl
    | cons b tb => exact absurd hs (by simp)
  | cons a ta ih =>
    intro bs hs t c
    cases bs with
    | nil => exact absurd hs (by simp)
    | cons b tb =>
      simp only [List.map_cons, List.cons.injEq] at hs
      cases t with
      | zero =>
        show cellVal (gridSub a b) c = _
        exact gridSub_cellVal a b hs.1 c
      | succ t => exact ih tb hs.2 t c

theorem filterMap_const_some {α β : Type} (l : List α) (h : α → Option β) (b : β)
    (hall : ∀ x ∈ l, h x = some b) : l.filterMap h = List.replicate l.length b := by
  induction l with
  | nil => rfl
  | cons x t ih =>
    rw [List.filterMap_cons_some (hall x (List.mem_cons_self x t)),
        ih (fun y hy => hall y (List.mem_cons_of_mem x hy)),
        List.length_cons, List.replicate_succ]

theorem meanCell_replicate (n : Nat) (a : ℚ) (hn : n ≠ 0) :
    meanCell (List.replicate n a) = some a := by
  unfold meanCell
  have hne : (List.replicate n a).isEmpty = false := by
    cases n with
    | zero => exact absurd rfl hn
    | succ k => rfl
  rw [if_neg (by simp [hne]), List.sum_replicate, List.length_replicate, nsmul_eq_mul]
  congr 1
  exact mul_div_cancel_left₀ a (Nat.cast_ne_zero.2 hn)

/-- C5: with a supplied baseline of the same shape as the field, the
anomaly is exactly the elementwise difference field minus baseline, and it
keeps the field's shape; for a time-resolved field and a time-resolved
baseline the same holds frame by frame. -/
theorem anomaly_eq_direct_subtraction (ds : ChlDataset) :
    (∀ a b : Grid, getVar ds "chlorophyll" = Except.ok (ChlVar.static a) →
      b.map List.length = a.map List.length →
      calculate_chlorophyll_anomaly ds (some (ChlVar.static b)) =
        Except.ok (ChlVar.static (gridSub a b)) ∧
      (gridSub a b).map List.length = a.map List.length ∧
      ∀ c : Cell, cellVal (gridSub a b) c = cellSub (cellVal a c) (cellVal b c)) ∧
    (∀ as bs : List Grid, getVar ds "chlorophyll" = Except.ok (ChlVar.timed as) →
      bs.map (fun g => g.map List.length) = as.map (fun g => g.map List.length) →
      calculate_chlorophyll_anomaly ds (some (ChlVar.timed bs)) =
        Except.ok (ChlVar.timed (as.zipWith gridSub bs)) ∧
      (as.zipWith gridSub bs).map (fun g => g.map List.length) =
        as.map (fun g => g.map List.length) ∧
      ∀ (t : Nat) (c : Cell),
        cellVal ((as.zipWith gridSub bs).getD t []) c =
          cellSub (cellVal (as.getD t []) c) (cellVal (bs.getD t []) c)) := by
  constructor
  · intro a b hv hs
    refine ⟨?_, gridSub_shape a b hs, gridSub_cellVal a b hs⟩
    unfold calculate_chlorophyll_anomaly
    rw [hv]
    rfl
  · intro as bs hv hs
    refine ⟨?_, timedSub_shapes as bs hs, timedSub_frames as bs hs⟩
    unfold calculate_chlorophyll_anomaly
    rw [hv]
    rfl

/-- Witness for C5 at concrete one-cell fields and baselines. -/
theorem anomaly_eq_direct_subtraction_witness :
    calculate_chlorophyll_anomaly [("chlorophyll", ChlVar.static [[some 3]])]
        (some (ChlVar.static [[some 1]])) =
      Except.ok (ChlVar.static (gridSub [[some 3]] [[some 1]])) ∧
    calculate_chlorophyll_anomaly [("chlorophyll", ChlVar.timed [[[some 3]]])]
        (some (ChlVar.timed [[[some 1]]])) =
      Except.ok (ChlVar.timed (List.zipWith gridSub [[[some 3]]] [[[some 1]]])) :=
  ⟨((anomaly_eq_direct_subtraction [("chlorophyll", ChlVar.static [[some 3]])]).1
      [[some 3]] [[some 1]] rfl rfl).1,
   ((anomaly_eq_direct_subtraction [("chlorophyll", ChlVar.timed [[[some 3]]])]).2
      [[[some 3]]] [[[some 1]]] rfl rfl).1⟩

/-- C7: on a time series whose frames are all equal (values constant along
the time dimension, all present), the anomaly computed with no supplied
baseline, against the internal temporal mean, is zero at every cell of
every frame. -/
theorem constant_field_zero_anomaly (ds : ChlDataset) (frames : List Grid) (g0 : Grid)
    (vf : Cell → ℚ)
    (hv : getVar ds "chlorophyll" = Except.ok (ChlVar.timed frames))
    (hframes : ∀ f ∈ frames, f = g0)
    (hval : ∀ c ∈ allCells g0, cellVal g0 c = some (vf c)) :
    ∃ out : List Grid,
      calculate_chlorophyll_anomaly ds none = Except.ok (ChlVar.timed out) ∧
      ∀ f ∈ out, ∀ c ∈ allCells g0, cellVal f c = some 0 := by
  refine ⟨frames.map (fun a => gridSub a (timeMean frames)), ?_, ?_⟩
  · unfold calculate_chlorophyll_anomaly
    rw [hv]
    rfl
  · intro f hf c hc
    rcases List.mem_map.1 hf with ⟨a, ha, rfl⟩
    have hag : a = g0 := hframes a ha
    have hne : frames ≠ [] := by
      intro h0
      rw [h0] at ha
      exact List.not_mem_nil a ha
    obtain ⟨f0, rest, hfr⟩ := List.exists_cons_of_ne_nil hne
    have hf0 : f0 = g0 := hframes f0 (by rw [hfr]; exact List.mem_cons_self f0 rest)
    have htm : timeMean frames =
        mapGridIdx g0 (fun p => meanCell (frames.filterMap (fun fr => cellVal fr p))) := by
      conv_lhs => rw [hfr]
      show mapGridIdx f0
          (fun p => meanCell ((f0 :: rest).filterMap (fun fr => cellVal fr p))) = _
      rw [← hfr, hf0]
    have hshape : (timeMean frames).map List.length = g0.map List.length := by
      rw [htm]
      exact mapGridIdx_shape g0 _
    have hBc : cellVal (timeMean frames) c = some (vf c) := by
      rw [htm]
      show ((mapGridIdx g0
          (fun p => meanCell (frames.filterMap (fun fr => cellVal fr p)))).getD c.1 []).getD
        c.2 none = some (vf c)
      rw [mapGridIdx_getD g0 _ none hc]
      rw [filterMap_const_some frames _ (vf c)
        (fun fr hfr2 => by rw [hframes fr hfr2]; exact hval c hc)]
      apply meanCell_replicate
      rw [hfr]
      simp
    rw [hag, gridSub_cellVal g0 (timeMean frames) hshape c, hval c hc, hBc]
    show some (vf c - vf c) = some 0
    rw [sub_self]

/-- Witness for C7 on a two-frame constant time series. -/
theorem constant_field_zero_anomaly_witness :
    ∃ out : List Grid,
      calculate_chlorophyll_anomaly
          [("chlorophyll", ChlVar.timed [[[some 2]], [[some 2]]])] none =
        Except.ok (ChlVar.timed out) ∧
      ∀ f ∈ out, ∀ c ∈ allCells [[some 2]], cellVal f c = some 0 :=
  constant_field_zero_anomaly [("chlorophyll", ChlVar.timed [[[some 2]], [[some 2]]])]
    [[[some 2]], [[some 2]]] [[some 2]] (fun _ => 2) rfl
    (by with_unfolding_all decide) (by with_unfolding_all decide)
